import Mathlib

/-!
Shallow embedding of `src/pong4k.py`, a pygame Pong clone.

Conventions used throughout:
* A pygame `Rect` stores integer coordinates; it is modelled with `ℤ` fields.
  `left`, `right`, `top`, `bottom`, `centerx`, `centery`, `colliderect` and
  `clamp_ip` follow pygame's semantics (`colliderect` is a strict-overlap
  test; `clamp_ip` clamps each axis independently, centring when the rect is
  at least as large as the bounds).
* Python floats are idealised as real numbers `ℝ`.
* Python `int(x)` and pygame's float-to-int coordinate conversion truncate
  toward zero; this is `truncR`.
* Python `//` is floor division; in this program it is only applied to
  nonnegative constants, where it agrees with `ℤ` division (`Int.ediv`,
  whose result on nonnegative operands equals truncating division).
* The random draws of `Ball.reset` (deflection angle and direction sign) are
  passed as explicit parameters, so every random outcome is quantified.
-/

namespace Pong4k

open scoped Classical

/-- Playfield width (`WIDTH = 800` in `pong4k.py`). -/
def WIDTH : ℤ := 800

/-- Playfield height (`HEIGHT = 600`). -/
def HEIGHT : ℤ := 600

/-- `PADDLE_WIDTH = 15`. -/
def PADDLE_WIDTH : ℤ := 15

/-- `PADDLE_HEIGHT = 100`. -/
def PADDLE_HEIGHT : ℤ := 100

/-- `BALL_SIZE = 15`. -/
def BALL_SIZE : ℤ := 15

/-- `BALL_SPEED = 7` (a Python int). -/
def BALL_SPEED : ℤ := 7

/-- `MAX_ANGLE = math.pi / 3`, the 60 degree maximal deflection. -/
noncomputable def MAX_ANGLE : ℝ := Real.pi / 3

/-- The mixer sample rate, `22050` Hz. -/
def SAMPLE_RATE : ℕ := 22050

/-- Python `int(x)` / pygame float-to-int conversion: truncation toward zero. -/
noncomputable def truncR (r : ℝ) : ℤ := if 0 ≤ r then ⌊r⌋ else ⌈r⌉

/-- A pygame `Rect`: integer position and size. -/
structure Rect where
  x : ℤ
  y : ℤ
  w : ℤ
  h : ℤ
  deriving DecidableEq

/-- `rect.left`. -/
def Rect.left (r : Rect) : ℤ := r.x

/-- `rect.right = x + w`. -/
def Rect.right (r : Rect) : ℤ := r.x + r.w

/-- `rect.top`. -/
def Rect.top (r : Rect) : ℤ := r.y

/-- `rect.bottom = y + h`. -/
def Rect.bottom (r : Rect) : ℤ := r.y + r.h

/-- `rect.centerx = x + w // 2`. -/
def Rect.centerx (r : Rect) : ℤ := r.x + r.w / 2

/-- `rect.centery = y + h // 2`. -/
def Rect.centery (r : Rect) : ℤ := r.y + r.h / 2

/-- pygame `Rect.colliderect`: strict axis-aligned overlap test. -/
def Rect.colliderect (a b : Rect) : Bool :=
  decide (a.x < b.x + b.w) && decide (b.x < a.x + a.w) &&
    decide (a.y < b.y + b.h) && decide (b.y < a.y + a.h)

/-- One axis of pygame `Rect.clamp_ip`: a rect at least as large as the
bounds is centred, otherwise its coordinate is clamped inside the bounds. -/
def clampCoord (pos size bpos bsize : ℤ) : ℤ :=
  if bsize ≤ size then bpos + bsize / 2 - size / 2
  else if pos < bpos then bpos
  else if bpos + bsize < pos + size then bpos + bsize - size
  else pos

/-- pygame `Rect.clamp_ip`, applied to both axes. -/
def Rect.clamp_ip (r bounds : Rect) : Rect :=
  ⟨clampCoord r.x r.w bounds.x bounds.w, clampCoord r.y r.h bounds.y bounds.h,
    r.w, r.h⟩

/-- The screen rect `pygame.Rect(0, 0, WIDTH, HEIGHT)` used for clamping. -/
def screenRect : Rect := ⟨0, 0, WIDTH, HEIGHT⟩

/-- A paddle: its rect and its vertical speed (`self.speed = 7`). -/
structure Paddle where
  rect : Rect
  speed : ℤ

/-- `Paddle.move_ai(ball_y)` from `pong4k.py` lines 63-68. -/
def Paddle.move_ai (p : Paddle) (ball_y : ℤ) : Paddle :=
  let r := p.rect
  let r2 :=
    if r.centery < ball_y - 10 then { r with y := r.y + p.speed }
    else if ball_y + 10 < r.centery then { r with y := r.y - p.speed }
    else r
  ⟨r2.clamp_ip screenRect, p.speed⟩

/-- `Paddle.move_mouse(mouse_y)` from `pong4k.py` lines 70-72. -/
def Paddle.move_mouse (p : Paddle) (mouse_y : ℤ) : Paddle :=
  ⟨({ p.rect with y := mouse_y - PADDLE_HEIGHT / 2 }).clamp_ip screenRect, p.speed⟩

/-- The ball: its rect and its real-valued velocity components. -/
structure Ball where
  rect : Rect
  vx : ℝ
  vy : ℝ

/-- `Ball.reset()` from `pong4k.py` lines 85-91, with the two random draws
(`angle = random.uniform(-MAX_ANGLE, MAX_ANGLE)` and
`direction = random.choice([-1, 1])`) as parameters.  Setting
`rect.center = (WIDTH // 2, HEIGHT // 2)` puts the top-left corner at
`(WIDTH // 2 - w // 2, HEIGHT // 2 - h // 2)`. -/
noncomputable def Ball.reset (b : Ball) (angle : ℝ) (direction : ℤ) : Ball :=
  ⟨⟨WIDTH / 2 - b.rect.w / 2, HEIGHT / 2 - b.rect.h / 2, b.rect.w, b.rect.h⟩,
    (direction : ℝ) * (BALL_SPEED : ℝ) * Real.cos angle,
    (BALL_SPEED : ℝ) * Real.sin angle⟩

/-- `Ball.move()` from `pong4k.py` lines 93-95: the float velocity is added
to the integer rect coordinate and the assignment truncates toward zero. -/
noncomputable def Ball.move (b : Ball) : Ball :=
  ⟨⟨truncR ((b.rect.x : ℝ) + b.vx), truncR ((b.rect.y : ℝ) + b.vy),
      b.rect.w, b.rect.h⟩,
    b.vx, b.vy⟩

/-- `Ball.bounce_y()`: vertical reflection. -/
def Ball.bounce_y (b : Ball) : Ball := ⟨b.rect, b.vx, -b.vy⟩

/-- The clamped hit offset of `pong4k.py` lines 206-207 (and 219-220):
`max(-1, min(1, (ball.rect.centery - paddle.rect.centery) / (PADDLE_HEIGHT / 2)))`.
In Python `PADDLE_HEIGHT / 2` is float true division, hence the real `50`. -/
noncomputable def hitOffset (ballCy paddleCy : ℤ) : ℝ :=
  max (-1) (min 1 (((ballCy : ℝ) - (paddleCy : ℝ)) / ((PADDLE_HEIGHT : ℝ) / 2)))

/-- The left-paddle collision branch of the game loop (`pong4k.py` lines
204-215).  Returns the updated ball and whether the branch fired (which is
also when `hit_paddle` is played).  The response recomputes the velocity at
constant speed along `offset * MAX_ANGLE` and re-seats the ball at
`left_paddle.rect.right + 1`. -/
noncomputable def leftPaddleCollide (b : Ball) (lp : Paddle) : Ball × Bool :=
  if b.rect.colliderect lp.rect = true ∧ b.vx < 0 then
    (⟨{ b.rect with x := lp.rect.right + 1 },
        (BALL_SPEED : ℝ) * Real.cos (hitOffset b.rect.centery lp.rect.centery * MAX_ANGLE),
        (BALL_SPEED : ℝ) * Real.sin (hitOffset b.rect.centery lp.rect.centery * MAX_ANGLE)⟩,
      true)
  else (b, false)

/-- The right-paddle collision branch (`pong4k.py` lines 218-225).  The
horizontal velocity is `-BALL_SPEED * cos(angle)` and the ball is re-seated
so that `ball.rect.right = right_paddle.rect.left - 1`. -/
noncomputable def rightPaddleCollide (b : Ball) (rp : Paddle) : Ball × Bool :=
  if b.rect.colliderect rp.rect = true ∧ 0 < b.vx then
    (⟨{ b.rect with x := rp.rect.left - 1 - b.rect.w },
        -(BALL_SPEED : ℝ) * Real.cos (hitOffset b.rect.centery rp.rect.centery * MAX_ANGLE),
        (BALL_SPEED : ℝ) * Real.sin (hitOffset b.rect.centery rp.rect.centery * MAX_ANGLE)⟩,
      true)
  else (b, false)

/-- Result of the per-tick scoring section: the ball, both scores, and how
many times the score sound was played this tick. -/
structure ScoreOut where
  ball : Ball
  ls : ℕ
  rs : ℕ
  sounds : ℕ

/-- The second scoring test (`pong4k.py` lines 232-235): if the (possibly
already reset) ball satisfies `ball.rect.right >= WIDTH`, the left player
scores, the score sound plays and the ball resets. -/
noncomputable def scoringRight (o : ScoreOut) (a2 : ℝ) (d2 : ℤ) : ScoreOut :=
  if WIDTH ≤ o.ball.rect.right then
    ⟨o.ball.reset a2 d2, o.ls + 1, o.rs, o.sounds + 1⟩
  else o

/-- The scoring section of one tick (`pong4k.py` lines 228-235): first
`if ball.rect.left <= 0` (right player scores, sound, reset), then
`if ball.rect.right >= WIDTH` on the resulting ball.  The random draws of
the up to two resets are passed explicitly. -/
noncomputable def scoringPhase (b : Ball) (ls rs : ℕ) (a1 : ℝ) (d1 : ℤ)
    (a2 : ℝ) (d2 : ℤ) : ScoreOut :=
  scoringRight
    (if b.rect.left ≤ 0 then ⟨b.reset a1 d1, ls, rs + 1, 1⟩ else ⟨b, ls, rs, 0⟩)
    a2 d2

/-- The score-relevant part of the match state: both scores and whether the
game-over check (`pong4k.py` lines 238-240) has fired. -/
structure MatchSt where
  ls : ℕ
  rs : ℕ
  over : Bool
  deriving DecidableEq

/-- The game-over check of `pong4k.py` line 238: the match is over exactly
when `left_score >= 5 or right_score >= 5`, evaluated on this tick's
scores. -/
def afterScores (o : ScoreOut) : MatchSt :=
  ⟨o.ls, o.rs, decide (5 ≤ o.ls ∨ 5 ≤ o.rs)⟩

/-- The per-tick data the scoring section depends on.  In the game loop the
ball reaching the scoring tests always has `w = h = BALL_SIZE` (see
`ball_size_invariant`); its position and velocity at that point are
otherwise unconstrained here, which covers every reachable trajectory. -/
structure TickIn where
  ballX : ℤ
  ballY : ℤ
  vx : ℝ
  vy : ℝ
  a1 : ℝ
  d1 : ℤ
  a2 : ℝ
  d2 : ℤ

/-- The ball handed to the scoring section on a tick. -/
def tickBall (i : TickIn) : Ball :=
  ⟨⟨i.ballX, i.ballY, BALL_SIZE, BALL_SIZE⟩, i.vx, i.vy⟩

/-- One tick of the match-progress state machine: once the game-over check
has fired the loop has returned (the state freezes); otherwise the scoring
section runs and the game-over check is evaluated. -/
noncomputable def scoreTick (s : MatchSt) (i : TickIn) : MatchSt :=
  if s.over then s
  else afterScores (scoringPhase (tickBall i) s.ls s.rs i.a1 i.d1 i.a2 i.d2)

/-- The initial match state: `left_score = 0`, `right_score = 0`. -/
def matchInit : MatchSt := ⟨0, 0, false⟩

/-- The match state after a sequence of ticks. -/
noncomputable def runMatch (l : List TickIn) : MatchSt :=
  l.foldl scoreTick matchInit

/-- The inductive invariant of the match state: while running both scores
are below the threshold, and once over exactly one score sits at exactly 5. -/
def MatchInv (s : MatchSt) : Prop :=
  (s.over = false → s.ls < 5 ∧ s.rs < 5) ∧
    (s.over = true → (s.ls = 5 ∧ s.rs < 5) ∨ (s.rs = 5 ∧ s.ls < 5))

/-- `SoundEngine._generate_tone` (`pong4k.py` lines 16-30):
`n_samples = int(sample_rate * duration)` samples, sample `i` being
`int(volume * 32767 * sin(2 * pi * frequency * (i / sample_rate)))`,
each truncated toward zero. -/
noncomputable def generate_tone (frequency duration volume : ℝ) : List ℤ :=
  (List.range (truncR ((SAMPLE_RATE : ℝ) * duration)).toNat).map fun (i : ℕ) =>
    truncR (volume * 32767 *
      Real.sin (2 * Real.pi * frequency * ((i : ℝ) / (SAMPLE_RATE : ℝ))))

/-- The four screens of the program flow. -/
inductive Screen where
  | menu
  | inMatch
  | gameOverPrompt
  | terminated
  deriving DecidableEq

/-- The inputs the screen flow reacts to: a window-close event, a click on
the start or quit button (or anywhere else), the `y`/`n` keys (or any other
key), the match-over signal from the game loop, and an uneventful tick. -/
inductive UiEvent where
  | windowClose
  | startClick
  | quitClick
  | otherClick
  | keyY
  | keyN
  | otherKey
  | matchOver
  | idle
  deriving DecidableEq

/-- The screen transition function realised by the code:
`main_menu` (lines 117-127) returns to start the match on a start click and
exits on a quit click or `pygame.QUIT`, ignoring everything else;
the game loop (lines 183-240) exits on `pygame.QUIT` and enters the
game-over prompt when a score reaches 5; `game_over_prompt` (lines 152-160)
returns restart on `y`, exits on `n` or `pygame.QUIT`, ignoring everything
else; `main` (lines 268-276) loops back to the menu on restart. -/
def screenStep : Screen → UiEvent → Screen
  | .menu, .windowClose => .terminated
  | .menu, .startClick => .inMatch
  | .menu, .quitClick => .terminated
  | .menu, _ => .menu
  | .inMatch, .windowClose => .terminated
  | .inMatch, .matchOver => .gameOverPrompt
  | .inMatch, _ => .inMatch
  | .gameOverPrompt, .windowClose => .terminated
  | .gameOverPrompt, .keyY => .menu
  | .gameOverPrompt, .keyN => .terminated
  | .gameOverPrompt, _ => .gameOverPrompt
  | .terminated, _ => .terminated

/-- The state machine exactly as the specification's section 4.5 states it:
Menu to Match on a start click; Menu to Terminated on a quit click or
window-close; Match to GameOverPrompt on match-over; Match to Terminated on
window-close; GameOverPrompt to Menu on the affirmative input, to Terminated
on the negative input or window-close; no other transitions exist. -/
def specFlowStep (s : Screen) (e : UiEvent) : Screen :=
  match s with
  | .menu =>
      if e = .startClick then .inMatch
      else if e = .quitClick ∨ e = .windowClose then .terminated
      else .menu
  | .inMatch =>
      if e = .matchOver then .gameOverPrompt
      else if e = .windowClose then .terminated
      else .inMatch
  | .gameOverPrompt =>
      if e = .keyY then .menu
      else if e = .keyN ∨ e = .windowClose then .terminated
      else .gameOverPrompt
  | .terminated => .terminated

/-! ### Helper lemmas -/

/-- Truncation toward zero never increases the magnitude. -/
theorem truncR_abs_le (r : ℝ) : |((truncR r : ℤ) : ℝ)| ≤ |r| := by
  unfold truncR
  split_ifs with h
  · rw [abs_of_nonneg h, abs_of_nonneg (by exact_mod_cast Int.floor_nonneg.mpr h)]
    exact Int.floor_le r
  · push_neg at h
    rw [abs_of_nonpos h.le,
      abs_of_nonpos (by exact_mod_cast Int.ceil_le.mpr (by exact_mod_cast h.le))]
    exact neg_le_neg (Int.le_ceil r)

/-- Truncation toward zero of a nonnegative real is its floor. -/
theorem truncR_of_nonneg {r : ℝ} (h : 0 ≤ r) : truncR r = ⌊r⌋ := by
  unfold truncR
  exact if_pos h

/-- A velocity recomputed at constant speed along any angle has that speed. -/
theorem fixed_speed (c θ : ℝ) :
    (c * Real.cos θ) ^ 2 + (c * Real.sin θ) ^ 2 = c ^ 2 := by
  have h := Real.sin_sq_add_cos_sq θ
  linear_combination c ^ 2 * h

/-- The clamped hit offset always lies in `[-1, 1]`. -/
theorem hitOffset_bounds (a b : ℤ) :
    -1 ≤ hitOffset a b ∧ hitOffset a b ≤ 1 := by
  unfold hitOffset
  constructor
  · exact le_max_left _ _
  · exact max_le (by norm_num) (min_le_left _ _)

/-- The deflection angle of any offset in `[-1, 1]` lies strictly inside
`(-π/2, π/2)`, so its cosine is positive. -/
theorem cos_offset_angle_pos {o : ℝ} (h1 : -1 ≤ o) (h2 : o ≤ 1) :
    0 < Real.cos (o * MAX_ANGLE) := by
  have hπ := Real.pi_pos
  unfold MAX_ANGLE
  apply Real.cos_pos_of_mem_Ioo
  constructor
  · nlinarith
  · nlinarith

/-- The cosine of the angle produced by the clamped hit offset is positive. -/
theorem cos_hitOffset_pos (a b : ℤ) :
    0 < Real.cos (hitOffset a b * MAX_ANGLE) :=
  cos_offset_angle_pos (hitOffset_bounds a b).1 (hitOffset_bounds a b).2

/-- Characterisation of the left-paddle collision branch. -/
theorem leftPaddleCollide_spec (b : Ball) (lp : Paddle) :
    (b.rect.colliderect lp.rect = true ∧ b.vx < 0 ∧
      leftPaddleCollide b lp =
        (⟨{ b.rect with x := lp.rect.right + 1 },
            (BALL_SPEED : ℝ) *
              Real.cos (hitOffset b.rect.centery lp.rect.centery * MAX_ANGLE),
            (BALL_SPEED : ℝ) *
              Real.sin (hitOffset b.rect.centery lp.rect.centery * MAX_ANGLE)⟩,
          true)) ∨
    leftPaddleCollide b lp = (b, false) := by
  by_cases h : b.rect.colliderect lp.rect = true ∧ b.vx < 0
  · left
    refine ⟨h.1, h.2, ?_⟩
    unfold leftPaddleCollide
    rw [if_pos h]
  · right
    unfold leftPaddleCollide
    rw [if_neg h]

/-- Characterisation of the right-paddle collision branch. -/
theorem rightPaddleCollide_spec (b : Ball) (rp : Paddle) :
    (b.rect.colliderect rp.rect = true ∧ 0 < b.vx ∧
      rightPaddleCollide b rp =
        (⟨{ b.rect with x := rp.rect.left - 1 - b.rect.w },
            -(BALL_SPEED : ℝ) *
              Real.cos (hitOffset b.rect.centery rp.rect.centery * MAX_ANGLE),
            (BALL_SPEED : ℝ) *
              Real.sin (hitOffset b.rect.centery rp.rect.centery * MAX_ANGLE)⟩,
          true)) ∨
    rightPaddleCollide b rp = (b, false) := by
  by_cases h : b.rect.colliderect rp.rect = true ∧ 0 < b.vx
  · left
    refine ⟨h.1, h.2, ?_⟩
    unfold rightPaddleCollide
    rw [if_pos h]
  · right
    unfold rightPaddleCollide
    rw [if_neg h]

/-- Clamping a paddle-height rect vertically into the screen lands in
`[0, HEIGHT - PADDLE_HEIGHT]`. -/
theorem clampCoord_paddle_bounds (pos : ℤ) :
    0 ≤ clampCoord pos PADDLE_HEIGHT 0 HEIGHT ∧
      clampCoord pos PADDLE_HEIGHT 0 HEIGHT ≤ HEIGHT - PADDLE_HEIGHT := by
  unfold clampCoord PADDLE_HEIGHT HEIGHT
  split_ifs <;> omega

/-- Neither moving, bouncing, resetting nor a paddle bounce changes the
ball rect's size, so the ball keeps `w = h = BALL_SIZE` throughout a match. -/
theorem ball_size_invariant (b : Ball) (a : ℝ) (d : ℤ) (lp rp : Paddle) :
    (b.move.rect.w = b.rect.w ∧ b.move.rect.h = b.rect.h) ∧
      (b.bounce_y.rect.w = b.rect.w ∧ b.bounce_y.rect.h = b.rect.h) ∧
      ((b.reset a d).rect.w = b.rect.w ∧ (b.reset a d).rect.h = b.rect.h) ∧
      ((leftPaddleCollide b lp).1.rect.w = b.rect.w ∧
        (leftPaddleCollide b lp).1.rect.h = b.rect.h) ∧
      ((rightPaddleCollide b rp).1.rect.w = b.rect.w ∧
        (rightPaddleCollide b rp).1.rect.h = b.rect.h) := by
  refine ⟨⟨rfl, rfl⟩, ⟨rfl, rfl⟩, ⟨rfl, rfl⟩, ?_, ?_⟩
  · rcases leftPaddleCollide_spec b lp with ⟨_, _, h⟩ | h <;> rw [h]
    · exact ⟨rfl, rfl⟩
    · exact ⟨rfl, rfl⟩
  · rcases rightPaddleCollide_spec b rp with ⟨_, _, h⟩ | h <;> rw [h]
    · exact ⟨rfl, rfl⟩
    · exact ⟨rfl, rfl⟩

/-- A reset ball (of `BALL_SIZE` width) sits strictly inside both side
edges, so no second scoring test can fire on the tick that reset it. -/
theorem reset_inside {b : Ball} (hw : b.rect.w = BALL_SIZE) (a : ℝ) (d : ℤ) :
    0 < (b.reset a d).rect.left ∧ (b.reset a d).rect.right < WIDTH := by
  unfold Ball.reset Rect.left Rect.right
  rw [hw]
  unfold WIDTH HEIGHT BALL_SIZE
  norm_num

/-- Case analysis of the scoring section for a `BALL_SIZE` ball: either no
score moves, or exactly one of the two scores goes up by exactly one, each
event playing the sound exactly once and resetting the ball. -/
theorem scoringPhase_cases {b : Ball} (hw : b.rect.w = BALL_SIZE)
    (ls rs : ℕ) (a1 : ℝ) (d1 : ℤ) (a2 : ℝ) (d2 : ℤ) :
    (¬ b.rect.left ≤ 0 ∧ ¬ WIDTH ≤ b.rect.right ∧
      scoringPhase b ls rs a1 d1 a2 d2 = ⟨b, ls, rs, 0⟩) ∨
    (b.rect.left ≤ 0 ∧
      scoringPhase b ls rs a1 d1 a2 d2 = ⟨b.reset a1 d1, ls, rs + 1, 1⟩) ∨
    (¬ b.rect.left ≤ 0 ∧ WIDTH ≤ b.rect.right ∧
      scoringPhase b ls rs a1 d1 a2 d2 = ⟨b.reset a2 d2, ls + 1, rs, 1⟩) := by
  unfold scoringPhase
  by_cases h1 : b.rect.left ≤ 0
  · right; left
    refine ⟨h1, ?_⟩
    rw [if_pos h1]
    unfold scoringRight
    rw [if_neg]
    exact not_le.mpr (reset_inside hw a1 d1).2
  · rw [if_neg h1]
    by_cases h2 : WIDTH ≤ b.rect.right
    · right; right
      refine ⟨h1, h2, ?_⟩
      unfold scoringRight
      rw [if_pos h2]
    · left
      refine ⟨h1, h2, ?_⟩
      unfold scoringRight
      rw [if_neg h2]

/-- A frozen (game-over) state is left unchanged by further ticks. -/
theorem scoreTick_frozen {s : MatchSt} (h : s.over = true) (i : TickIn) :
    scoreTick s i = s := by
  unfold scoreTick
  rw [h]
  exact if_pos rfl

/-- `MatchInv` is preserved by every tick. -/
theorem scoreTick_inv {s : MatchSt} (i : TickIn) (h : MatchInv s) :
    MatchInv (scoreTick s i) := by
  cases hov : s.over
  · have hlt := h.1 hov
    unfold scoreTick
    rw [hov]
    rw [if_neg (by simp)]
    rcases scoringPhase_cases (b := tickBall i) rfl s.ls s.rs i.a1 i.d1 i.a2 i.d2 with
      ⟨_, _, heq⟩ | ⟨_, heq⟩ | ⟨_, _, heq⟩ <;>
      rw [heq] <;>
      unfold afterScores MatchInv <;>
      constructor <;> intro hb <;> simp at hb ⊢ <;> omega
  · rw [scoreTick_frozen hov]
    exact h

/-- `MatchInv` holds in every reachable match state. -/
theorem runMatch_inv (l : List TickIn) : MatchInv (runMatch l) := by
  unfold runMatch
  have key : ∀ (t : List TickIn) (s : MatchSt), MatchInv s →
      MatchInv (t.foldl scoreTick s) := by
    intro t
    induction t with
    | nil => intro s hs; exact hs
    | cons a t2 ih => intro s hs; exact ih _ (scoreTick_inv a hs)
  apply key
  unfold MatchInv matchInit
  constructor
  · intro
    exact ⟨by norm_num, by norm_num⟩
  · intro h
    simp at h

/-- On `move_ai` the vertical coordinate is the clamp of some tentative
position, with the paddle's own height. -/
theorem move_ai_y_clamp (p : Paddle) (yb : ℤ) :
    ∃ pos, (p.move_ai yb).rect.y = clampCoord pos p.rect.h 0 HEIGHT := by
  unfold Paddle.move_ai
  by_cases h1 : p.rect.centery < yb - 10
  · refine ⟨p.rect.y + p.speed, ?_⟩
    simp only [if_pos h1]
    rfl
  · simp only [if_neg h1]
    by_cases h2 : yb + 10 < p.rect.centery
    · refine ⟨p.rect.y - p.speed, ?_⟩
      simp only [if_pos h2]
      rfl
    · refine ⟨p.rect.y, ?_⟩
      simp only [if_neg h2]
      rfl

/-- A reset ball is centred on the playfield, whatever its size. -/
theorem reset_center (b : Ball) (a : ℝ) (d : ℤ) :
    (b.reset a d).rect.centerx = WIDTH / 2 ∧
      (b.reset a d).rect.centery = HEIGHT / 2 := by
  constructor
  · show WIDTH / 2 - b.rect.w / 2 + b.rect.w / 2 = WIDTH / 2
    omega
  · show HEIGHT / 2 - b.rect.h / 2 + b.rect.h / 2 = HEIGHT / 2
    omega

/-! ### Claim theorems -/

/-- Claim C1: on every paddle-bounce event (ball rect overlapping a paddle
while moving toward it), the post-bounce velocity satisfies
`vx^2 + vy^2 = BALL_SPEED^2` — so the speed depends only on `BALL_SPEED`
and not on the hit position — and the sign of `vx` flips away from the
struck paddle: positive after a left-paddle hit, negative after a
right-paddle hit. -/
theorem spec_c1_bounce (b : Ball) (lp rp : Paddle) :
    ((leftPaddleCollide b lp).2 = true →
      0 < (leftPaddleCollide b lp).1.vx ∧
        (leftPaddleCollide b lp).1.vx ^ 2 + (leftPaddleCollide b lp).1.vy ^ 2 =
          (BALL_SPEED : ℝ) ^ 2) ∧
    ((rightPaddleCollide b rp).2 = true →
      (rightPaddleCollide b rp).1.vx < 0 ∧
        (rightPaddleCollide b rp).1.vx ^ 2 + (rightPaddleCollide b rp).1.vy ^ 2 =
          (BALL_SPEED : ℝ) ^ 2) := by
  have hspeed : (0 : ℝ) < (BALL_SPEED : ℝ) := by norm_num [BALL_SPEED]
  constructor
  · intro hfire
    rcases leftPaddleCollide_spec b lp with ⟨-, -, heq⟩ | heq
    · rw [heq]
      constructor
      · show 0 < (BALL_SPEED : ℝ) *
          Real.cos (hitOffset b.rect.centery lp.rect.centery * MAX_ANGLE)
        exact mul_pos hspeed (cos_hitOffset_pos _ _)
      · show ((BALL_SPEED : ℝ) * Real.cos _) ^ 2 +
            ((BALL_SPEED : ℝ) * Real.sin _) ^ 2 = (BALL_SPEED : ℝ) ^ 2
        exact fixed_speed _ _
    · rw [heq] at hfire
      simp at hfire
  · intro hfire
    rcases rightPaddleCollide_spec b rp with ⟨-, -, heq⟩ | heq
    · rw [heq]
      constructor
      · show -(BALL_SPEED : ℝ) *
            Real.cos (hitOffset b.rect.centery rp.rect.centery * MAX_ANGLE) < 0
        have hc := cos_hitOffset_pos b.rect.centery rp.rect.centery
        nlinarith
      · show (-(BALL_SPEED : ℝ) * Real.cos _) ^ 2 +
            ((BALL_SPEED : ℝ) * Real.sin _) ^ 2 = (BALL_SPEED : ℝ) ^ 2
        have hpy := Real.sin_sq_add_cos_sq
          (hitOffset b.rect.centery rp.rect.centery * MAX_ANGLE)
        linear_combination (BALL_SPEED : ℝ) ^ 2 * hpy
    · rw [heq] at hfire
      simp at hfire

/-- Witness for C1: a ball at the left paddle's height, moving left, fires
the left-paddle bounce and comes out moving right at speed `BALL_SPEED`. -/
theorem spec_c1_witness :
    (leftPaddleCollide ⟨⟨38, 300, 15, 15⟩, -7, 0⟩ ⟨⟨30, 250, 15, 100⟩, 7⟩).2 = true ∧
      (0 < (leftPaddleCollide ⟨⟨38, 300, 15, 15⟩, -7, 0⟩ ⟨⟨30, 250, 15, 100⟩, 7⟩).1.vx ∧
        (leftPaddleCollide ⟨⟨38, 300, 15, 15⟩, -7, 0⟩ ⟨⟨30, 250, 15, 100⟩, 7⟩).1.vx ^ 2 +
            (leftPaddleCollide ⟨⟨38, 300, 15, 15⟩, -7, 0⟩ ⟨⟨30, 250, 15, 100⟩, 7⟩).1.vy ^ 2 =
          (BALL_SPEED : ℝ) ^ 2) := by
  have hfire :
      (leftPaddleCollide ⟨⟨38, 300, 15, 15⟩, -7, 0⟩ ⟨⟨30, 250, 15, 100⟩, 7⟩).2 = true := by
    unfold leftPaddleCollide
    rw [if_pos]
    constructor
    · decide
    · show (-7 : ℝ) < 0
      norm_num
  exact ⟨hfire,
    (spec_c1_bounce ⟨⟨38, 300, 15, 15⟩, -7, 0⟩ ⟨⟨30, 250, 15, 100⟩, 7⟩
      ⟨⟨30, 250, 15, 100⟩, 7⟩).1 hfire⟩

/-- Claim C4: after any `move_ai` (move_toward) or `move_mouse`
(move_to_pointer) call, on any input, the paddle's vertical position lies in
`[0, HEIGHT - PADDLE_HEIGHT]`. -/
theorem spec_c4_paddle_clamped (p : Paddle) (yb ym : ℤ)
    (hh : p.rect.h = PADDLE_HEIGHT) :
    (0 ≤ (p.move_ai yb).rect.y ∧
        (p.move_ai yb).rect.y ≤ HEIGHT - PADDLE_HEIGHT) ∧
      (0 ≤ (p.move_mouse ym).rect.y ∧
        (p.move_mouse ym).rect.y ≤ HEIGHT - PADDLE_HEIGHT) := by
  constructor
  · obtain ⟨pos, hy⟩ := move_ai_y_clamp p yb
    rw [hy, hh]
    exact clampCoord_paddle_bounds pos
  · have hy : (p.move_mouse ym).rect.y =
        clampCoord (ym - PADDLE_HEIGHT / 2) p.rect.h 0 HEIGHT := rfl
    rw [hy, hh]
    exact clampCoord_paddle_bounds _

/-- Witness for C4 at the left paddle's starting rect with arbitrary
targets. -/
theorem spec_c4_witness :
    (⟨⟨30, 250, 15, 100⟩, 7⟩ : Paddle).rect.h = PADDLE_HEIGHT ∧
      ((0 ≤ ((⟨⟨30, 250, 15, 100⟩, 7⟩ : Paddle).move_ai 300).rect.y ∧
          ((⟨⟨30, 250, 15, 100⟩, 7⟩ : Paddle).move_ai 300).rect.y ≤
            HEIGHT - PADDLE_HEIGHT) ∧
        (0 ≤ ((⟨⟨30, 250, 15, 100⟩, 7⟩ : Paddle).move_mouse 9999).rect.y ∧
          ((⟨⟨30, 250, 15, 100⟩, 7⟩ : Paddle).move_mouse 9999).rect.y ≤
            HEIGHT - PADDLE_HEIGHT)) :=
  ⟨rfl, spec_c4_paddle_clamped ⟨⟨30, 250, 15, 100⟩, 7⟩ 300 9999 rfl⟩

/-- Claim C5: after `reset()`, for every outcome of the random draws (an
angle in `[-MAX_ANGLE, MAX_ANGLE]` and a direction sign in `{-1, +1}`), the
velocity satisfies `vx^2 + vy^2 = BALL_SPEED^2` and
`|vy| ≤ BALL_SPEED * sin MAX_ANGLE`, and the ball's rect is centred on the
playfield. -/
theorem spec_c5_reset (b : Ball) (a : ℝ) (d : ℤ)
    (h1 : -MAX_ANGLE ≤ a) (h2 : a ≤ MAX_ANGLE) (h3 : d = 1 ∨ d = -1) :
    (b.reset a d).vx ^ 2 + (b.reset a d).vy ^ 2 = (BALL_SPEED : ℝ) ^ 2 ∧
      |(b.reset a d).vy| ≤ (BALL_SPEED : ℝ) * Real.sin MAX_ANGLE ∧
      (b.reset a d).rect.centerx = WIDTH / 2 ∧
      (b.reset a d).rect.centery = HEIGHT / 2 := by
  have hπ := Real.pi_pos
  refine ⟨?_, ?_, ?_, ?_⟩
  · show ((d : ℝ) * (BALL_SPEED : ℝ) * Real.cos a) ^ 2 +
        ((BALL_SPEED : ℝ) * Real.sin a) ^ 2 = (BALL_SPEED : ℝ) ^ 2
    have hd : ((d : ℝ)) ^ 2 = 1 := by
      rcases h3 with h | h <;> rw [h] <;> norm_num
    have hpy := Real.sin_sq_add_cos_sq a
    linear_combination
      (BALL_SPEED : ℝ) ^ 2 * Real.cos a ^ 2 * hd + (BALL_SPEED : ℝ) ^ 2 * hpy
  · show |(BALL_SPEED : ℝ) * Real.sin a| ≤ (BALL_SPEED : ℝ) * Real.sin MAX_ANGLE
    unfold MAX_ANGLE at h1 h2 ⊢
    have hmemA : a ∈ Set.Icc (-(Real.pi / 2)) (Real.pi / 2) := by
      constructor <;> nlinarith
    have hmemM : Real.pi / 3 ∈ Set.Icc (-(Real.pi / 2)) (Real.pi / 2) := by
      constructor <;> nlinarith
    have hmemN : -(Real.pi / 3) ∈ Set.Icc (-(Real.pi / 2)) (Real.pi / 2) := by
      constructor <;> nlinarith
    have hmono := Real.strictMonoOn_sin.monotoneOn
    have hup : Real.sin a ≤ Real.sin (Real.pi / 3) := hmono hmemA hmemM h2
    have hdn : Real.sin (-(Real.pi / 3)) ≤ Real.sin a := hmono hmemN hmemA h1
    rw [Real.sin_neg] at hdn
    have hspeed : (0 : ℝ) < (BALL_SPEED : ℝ) := by norm_num [BALL_SPEED]
    rw [abs_le]
    constructor <;> nlinarith
  · show WIDTH / 2 - b.rect.w / 2 + b.rect.w / 2 = WIDTH / 2
    omega
  · show HEIGHT / 2 - b.rect.h / 2 + b.rect.h / 2 = HEIGHT / 2
    omega

/-- Witness for C5 at angle `0` and direction `+1`. -/
theorem spec_c5_witness :
    (-MAX_ANGLE ≤ (0 : ℝ) ∧ (0 : ℝ) ≤ MAX_ANGLE ∧ ((1 : ℤ) = 1 ∨ (1 : ℤ) = -1)) ∧
      ((Ball.reset ⟨⟨393, 293, 15, 15⟩, 0, 0⟩ 0 1).vx ^ 2 +
          (Ball.reset ⟨⟨393, 293, 15, 15⟩, 0, 0⟩ 0 1).vy ^ 2 = (BALL_SPEED : ℝ) ^ 2 ∧
        |(Ball.reset ⟨⟨393, 293, 15, 15⟩, 0, 0⟩ 0 1).vy| ≤
          (BALL_SPEED : ℝ) * Real.sin MAX_ANGLE ∧
        (Ball.reset ⟨⟨393, 293, 15, 15⟩, 0, 0⟩ 0 1).rect.centerx = WIDTH / 2 ∧
        (Ball.reset ⟨⟨393, 293, 15, 15⟩, 0, 0⟩ 0 1).rect.centery = HEIGHT / 2) := by
  have hA : -MAX_ANGLE ≤ (0 : ℝ) := by
    unfold MAX_ANGLE
    nlinarith [Real.pi_pos]
  have hB : (0 : ℝ) ≤ MAX_ANGLE := by
    unfold MAX_ANGLE
    positivity
  exact ⟨⟨hA, hB, Or.inl rfl⟩,
    spec_c5_reset ⟨⟨393, 293, 15, 15⟩, 0, 0⟩ 0 1 hA hB (Or.inl rfl)⟩

/-- Claim C7: the hit offset used by the bounce computation is clamped to
`[-1, 1]` for every collision configuration — including a ball centre
outside the paddle's vertical span — so the deflection angle never exceeds
`MAX_ANGLE` in magnitude. -/
theorem spec_c7_offset_clamp (a b : ℤ) :
    -1 ≤ hitOffset a b ∧ hitOffset a b ≤ 1 ∧
      |hitOffset a b * MAX_ANGLE| ≤ MAX_ANGLE := by
  obtain ⟨h1, h2⟩ := hitOffset_bounds a b
  refine ⟨h1, h2, ?_⟩
  have hMA : 0 ≤ MAX_ANGLE := by
    unfold MAX_ANGLE
    positivity
  rw [abs_mul, abs_of_nonneg hMA]
  have h3 : |hitOffset a b| ≤ 1 := abs_le.mpr ⟨h1, h2⟩
  nlinarith

/-- Claim C8: a paddle-bounce never fires while the ball moves away from
that paddle (the left branch requires `vx < 0`, the right branch `vx > 0`),
and immediately after a bounce the same branch cannot re-fire even if the
rects still overlap, because the recomputed `vx` already points away. -/
theorem spec_c8_direction_guard (b : Ball) (lp rp lp2 rp2 : Paddle) :
    (0 ≤ b.vx → leftPaddleCollide b lp = (b, false)) ∧
      (b.vx ≤ 0 → rightPaddleCollide b rp = (b, false)) ∧
      ((leftPaddleCollide b lp).2 = true →
        leftPaddleCollide (leftPaddleCollide b lp).1 lp2 =
          ((leftPaddleCollide b lp).1, false)) ∧
      ((rightPaddleCollide b rp).2 = true →
        rightPaddleCollide (rightPaddleCollide b rp).1 rp2 =
          ((rightPaddleCollide b rp).1, false)) := by
  have hspeed : (0 : ℝ) < (BALL_SPEED : ℝ) := by norm_num [BALL_SPEED]
  refine ⟨?_, ?_, ?_, ?_⟩
  · intro h
    unfold leftPaddleCollide
    rw [if_neg]
    rintro ⟨-, hlt⟩
    exact absurd hlt (not_lt.mpr h)
  · intro h
    unfold rightPaddleCollide
    rw [if_neg]
    rintro ⟨-, hlt⟩
    exact absurd hlt (not_lt.mpr h)
  · intro hfire
    rcases leftPaddleCollide_spec b lp with ⟨-, -, heq⟩ | heq
    · rw [heq]
      unfold leftPaddleCollide
      rw [if_neg]
      rintro ⟨-, hlt⟩
      have hpos : 0 < (BALL_SPEED : ℝ) *
          Real.cos (hitOffset b.rect.centery lp.rect.centery * MAX_ANGLE) :=
        mul_pos hspeed (cos_hitOffset_pos _ _)
      exact absurd hlt (not_lt.mpr hpos.le)
    · rw [heq] at hfire
      simp at hfire
  · intro hfire
    rcases rightPaddleCollide_spec b rp with ⟨-, -, heq⟩ | heq
    · rw [heq]
      unfold rightPaddleCollide
      rw [if_neg]
      rintro ⟨-, hlt⟩
      have hneg : -(BALL_SPEED : ℝ) *
          Real.cos (hitOffset b.rect.centery rp.rect.centery * MAX_ANGLE) < 0 := by
        have hc := cos_hitOffset_pos b.rect.centery rp.rect.centery
        nlinarith
      exact absurd hlt (not_lt.mpr hneg.le)
    · rw [heq] at hfire
      simp at hfire

/-- Witness for C8: a rightward-moving ball is untouched by the left-paddle
branch even when the rects overlap. -/
theorem spec_c8_witness :
    (0 : ℝ) ≤ (⟨⟨38, 300, 15, 15⟩, 7, 0⟩ : Ball).vx ∧
      leftPaddleCollide ⟨⟨38, 300, 15, 15⟩, 7, 0⟩ ⟨⟨30, 250, 15, 100⟩, 7⟩ =
        (⟨⟨38, 300, 15, 15⟩, 7, 0⟩, false) := by
  have h : (0 : ℝ) ≤ (⟨⟨38, 300, 15, 15⟩, 7, 0⟩ : Ball).vx := by
    show (0 : ℝ) ≤ 7
    norm_num
  exact ⟨h,
    (spec_c8_direction_guard ⟨⟨38, 300, 15, 15⟩, 7, 0⟩ ⟨⟨30, 250, 15, 100⟩, 7⟩
      ⟨⟨30, 250, 15, 100⟩, 7⟩ ⟨⟨30, 250, 15, 100⟩, 7⟩ ⟨⟨30, 250, 15, 100⟩, 7⟩).1 h⟩

/-- Claim C9: the screen flow realised by the code is exactly the
specification's four-state machine, with no other transitions. -/
theorem spec_c9_screen_flow (s : Screen) (e : UiEvent) :
    screenStep s e = specFlowStep s e := by
  cases s <;> cases e <;> rfl

/-- Counterexample to C2 as stated: with the ball's rect at `x = 0` the
ball has not fully exited either edge (its right edge is still at 15, well
inside the field), yet the code's scoring test `ball.rect.left <= 0`
already fires: the right player scores and the sound plays. -/
theorem spec_c2_counterexample :
    ¬ ((⟨⟨0, 300, 15, 15⟩, -1, 0⟩ : Ball).rect.right ≤ 0) ∧
      ¬ (WIDTH ≤ (⟨⟨0, 300, 15, 15⟩, -1, 0⟩ : Ball).rect.left) ∧
      (scoringPhase ⟨⟨0, 300, 15, 15⟩, -1, 0⟩ 0 0 0 1 0 1).rs = 1 ∧
      (scoringPhase ⟨⟨0, 300, 15, 15⟩, -1, 0⟩ 0 0 0 1 0 1).sounds = 1 := by
  have heval : scoringPhase ⟨⟨0, 300, 15, 15⟩, -1, 0⟩ 0 0 0 1 0 1 =
      ⟨Ball.reset ⟨⟨0, 300, 15, 15⟩, -1, 0⟩ 0 1, 0, 1, 1⟩ := by
    rcases scoringPhase_cases (b := ⟨⟨0, 300, 15, 15⟩, -1, 0⟩) rfl 0 0 0 1 0 1 with
      ⟨h1, -, -⟩ | ⟨-, heq⟩ | ⟨h1, -, -⟩
    · exact absurd (by decide) h1
    · exact heq
    · exact absurd (by decide) h1
  refine ⟨?_, ?_, ?_, ?_⟩
  · show ¬ ((0 : ℤ) + 15 ≤ 0)
    norm_num
  · show ¬ ((800 : ℤ) ≤ 0)
    norm_num
  · rw [heval]
  · rw [heval]

/-- Claim C2 as amended: a scoring event occurs exactly when the ball's
left edge reaches `x ≤ 0` (right player scores) or its right edge reaches
`x ≥ WIDTH` (left player scores) — i.e. as soon as the ball touches or
crosses an edge, not only once it has fully exited; on either event the
score sound is played exactly once and the ball is reset to the centre of
the playfield. -/
theorem spec_c2_scoring (b : Ball) (ls rs : ℕ) (a1 : ℝ) (d1 : ℤ)
    (a2 : ℝ) (d2 : ℤ) (hw : b.rect.w = BALL_SIZE) :
    ((scoringPhase b ls rs a1 d1 a2 d2).rs = rs + 1 ↔ b.rect.left ≤ 0) ∧
      ((scoringPhase b ls rs a1 d1 a2 d2).ls = ls + 1 ↔ WIDTH ≤ b.rect.right) ∧
      (b.rect.left ≤ 0 ∨ WIDTH ≤ b.rect.right →
        (scoringPhase b ls rs a1 d1 a2 d2).sounds = 1 ∧
          (scoringPhase b ls rs a1 d1 a2 d2).ball.rect.centerx = WIDTH / 2 ∧
          (scoringPhase b ls rs a1 d1 a2 d2).ball.rect.centery = HEIGHT / 2) ∧
      (¬ (b.rect.left ≤ 0 ∨ WIDTH ≤ b.rect.right) →
        scoringPhase b ls rs a1 d1 a2 d2 = ⟨b, ls, rs, 0⟩) := by
  have hww : b.rect.w = 15 := hw
  rcases scoringPhase_cases hw ls rs a1 d1 a2 d2 with
    ⟨h1, h2, heq⟩ | ⟨h1, heq⟩ | ⟨h1, h2, heq⟩
  · refine ⟨?_, ?_, ?_, fun _ => heq⟩
    · rw [heq]
      exact iff_of_false (by show ¬ (rs = rs + 1); omega) h1
    · rw [heq]
      exact iff_of_false (by show ¬ (ls = ls + 1); omega) h2
    · rintro (h | h)
      · exact absurd h h1
      · exact absurd h h2
  · have hnr : ¬ (WIDTH ≤ b.rect.right) := by
      have hx : b.rect.x ≤ 0 := h1
      show ¬ ((800 : ℤ) ≤ b.rect.x + b.rect.w)
      omega
    refine ⟨?_, ?_, ?_, ?_⟩
    · rw [heq]
      exact iff_of_true (by show rs + 1 = rs + 1; rfl) h1
    · rw [heq]
      exact iff_of_false (by show ¬ (ls = ls + 1); omega) hnr
    · intro _
      rw [heq]
      exact ⟨rfl, (reset_center b a1 d1).1, (reset_center b a1 d1).2⟩
    · intro h
      exact absurd (Or.inl h1) h
  · refine ⟨?_, ?_, ?_, ?_⟩
    · rw [heq]
      exact iff_of_false (by show ¬ (rs = rs + 1); omega) h1
    · rw [heq]
      exact iff_of_true (by show ls + 1 = ls + 1; rfl) h2
    · intro _
      rw [heq]
      exact ⟨rfl, (reset_center b a2 d2).1, (reset_center b a2 d2).2⟩
    · intro h
      exact absurd (Or.inr h2) h

/-- Witness for the amended C2: the concrete scoring event at
`ball.rect.left = 0` plays the sound once and recentres the ball. -/
theorem spec_c2_witness :
    (⟨⟨0, 300, 15, 15⟩, -1, 0⟩ : Ball).rect.w = BALL_SIZE ∧
      (scoringPhase ⟨⟨0, 300, 15, 15⟩, -1, 0⟩ 0 0 0 1 0 1).sounds = 1 ∧
      (scoringPhase ⟨⟨0, 300, 15, 15⟩, -1, 0⟩ 0 0 0 1 0 1).ball.rect.centerx =
        WIDTH / 2 ∧
      (scoringPhase ⟨⟨0, 300, 15, 15⟩, -1, 0⟩ 0 0 0 1 0 1).ball.rect.centery =
        HEIGHT / 2 :=
  ⟨rfl,
    (spec_c2_scoring ⟨⟨0, 300, 15, 15⟩, -1, 0⟩ 0 0 0 1 0 1 rfl).2.2.1
      (Or.inl (by decide))⟩

/-- Claim C6: in every reachable match state, a tick changes the scores by
at most one increment on exactly one side; while the match is running both
scores are below 5; the match is over exactly from the tick on which a
score first reaches 5 (that score is then exactly 5, the other still below
5), and a finished match state is frozen by further ticks. -/
theorem spec_c6_match_progress (l : List TickIn) (i : TickIn) :
    ((runMatch l).over = false →
        (runMatch l).ls < 5 ∧ (runMatch l).rs < 5) ∧
      ((runMatch l).over = true →
        ((runMatch l).ls = 5 ∧ (runMatch l).rs < 5) ∨
          ((runMatch l).rs = 5 ∧ (runMatch l).ls < 5)) ∧
      ((runMatch l).over = true → scoreTick (runMatch l) i = runMatch l) ∧
      (((scoreTick (runMatch l) i).ls = (runMatch l).ls ∧
          (scoreTick (runMatch l) i).rs = (runMatch l).rs) ∨
        ((scoreTick (runMatch l) i).ls = (runMatch l).ls + 1 ∧
          (scoreTick (runMatch l) i).rs = (runMatch l).rs) ∨
        ((scoreTick (runMatch l) i).ls = (runMatch l).ls ∧
          (scoreTick (runMatch l) i).rs = (runMatch l).rs + 1)) := by
  have hinv := runMatch_inv l
  refine ⟨hinv.1, hinv.2, fun h => scoreTick_frozen h i, ?_⟩
  cases hov : (runMatch l).over
  · unfold scoreTick
    rw [hov, if_neg (by simp)]
    rcases scoringPhase_cases (b := tickBall i) rfl (runMatch l).ls (runMatch l).rs
        i.a1 i.d1 i.a2 i.d2 with
      ⟨-, -, heq⟩ | ⟨-, heq⟩ | ⟨-, -, heq⟩
    · rw [heq]
      left
      exact ⟨rfl, rfl⟩
    · rw [heq]
      right; right
      exact ⟨rfl, rfl⟩
    · rw [heq]
      right; left
      exact ⟨rfl, rfl⟩
  · rw [scoreTick_frozen hov i]
    left
    exact ⟨rfl, rfl⟩

/-- Witness for C6 at the initial match state. -/
theorem spec_c6_witness :
    (runMatch []).over = false ∧ (runMatch []).ls < 5 ∧ (runMatch []).rs < 5 :=
  ⟨rfl, (spec_c6_match_progress [] ⟨0, 0, 0, 0, 0, 1, 0, 1⟩).1 rfl⟩

/-- Counterexample to C10 as stated: the component `vx = -1/2` has absolute
value below 1, yet `Ball.move` changes the x coordinate from 10 to 9
(`int(10 + (-0.5)) = int(9.5) = 9`): a negative fractional velocity does
move the ball. -/
theorem spec_c10_counterexample :
    |(-1 / 2 : ℝ)| < 1 ∧
      (Ball.move ⟨⟨10, 10, 15, 15⟩, -1 / 2, -1 / 2⟩).rect.x = 9 := by
  constructor
  · rw [abs_of_nonpos (by norm_num)]
    norm_num
  · show truncR (((10 : ℤ) : ℝ) + (-1 / 2)) = 9
    rw [truncR_of_nonneg (by push_cast; norm_num)]
    rw [show (((10 : ℤ) : ℝ) + (-1 / 2)) = 19 / 2 by push_cast; norm_num]
    rw [Int.floor_eq_iff]
    constructor <;> norm_num

/-- Claim C10 as amended: `Ball.move` adds the float velocity to the
integer coordinate and truncates the resulting coordinate toward zero; for
a velocity component `v` with `0 ≤ v < 1` and a nonnegative coordinate the
coordinate does not change on that tick (a component in `(-1, 0)` can
instead move the coordinate by one pixel, as the counterexample shows). -/
theorem spec_c10_move_truncation (b : Ball) :
    (b.move.rect.x = truncR ((b.rect.x : ℝ) + b.vx) ∧
        b.move.rect.y = truncR ((b.rect.y : ℝ) + b.vy)) ∧
      (0 ≤ b.rect.x → 0 ≤ b.vx → b.vx < 1 → b.move.rect.x = b.rect.x) ∧
      (0 ≤ b.rect.y → 0 ≤ b.vy → b.vy < 1 → b.move.rect.y = b.rect.y) := by
  refine ⟨⟨rfl, rfl⟩, ?_, ?_⟩
  · intro hx hv hv1
    show truncR ((b.rect.x : ℝ) + b.vx) = b.rect.x
    have hsum : (0 : ℝ) ≤ (b.rect.x : ℝ) + b.vx := by
      have hxr : (0 : ℝ) ≤ (b.rect.x : ℝ) := by exact_mod_cast hx
      linarith
    rw [truncR_of_nonneg hsum, Int.floor_int_add,
      Int.floor_eq_zero_iff.mpr ⟨hv, hv1⟩, add_zero]
  · intro hy hv hv1
    show truncR ((b.rect.y : ℝ) + b.vy) = b.rect.y
    have hsum : (0 : ℝ) ≤ (b.rect.y : ℝ) + b.vy := by
      have hyr : (0 : ℝ) ≤ (b.rect.y : ℝ) := by exact_mod_cast hy
      linarith
    rw [truncR_of_nonneg hsum, Int.floor_int_add,
      Int.floor_eq_zero_iff.mpr ⟨hv, hv1⟩, add_zero]

/-- Witness for the amended C10: with `vx = 1/2` from `x = 10` the
coordinate stays put. -/
theorem spec_c10_witness :
    (0 : ℤ) ≤ (⟨⟨10, 10, 15, 15⟩, 1 / 2, 1 / 2⟩ : Ball).rect.x ∧
      (0 : ℝ) ≤ (⟨⟨10, 10, 15, 15⟩, 1 / 2, 1 / 2⟩ : Ball).vx ∧
      (⟨⟨10, 10, 15, 15⟩, 1 / 2, 1 / 2⟩ : Ball).vx < 1 ∧
      (Ball.move ⟨⟨10, 10, 15, 15⟩, 1 / 2, 1 / 2⟩).rect.x = 10 := by
  have h1 : (0 : ℤ) ≤ (⟨⟨10, 10, 15, 15⟩, 1 / 2, 1 / 2⟩ : Ball).rect.x := by decide
  have h2 : (0 : ℝ) ≤ (⟨⟨10, 10, 15, 15⟩, 1 / 2, 1 / 2⟩ : Ball).vx := by
    show (0 : ℝ) ≤ 1 / 2
    norm_num
  have h3 : (⟨⟨10, 10, 15, 15⟩, 1 / 2, 1 / 2⟩ : Ball).vx < 1 := by
    show (1 / 2 : ℝ) < 1
    norm_num
  exact ⟨h1, h2, h3,
    (spec_c10_move_truncation ⟨⟨10, 10, 15, 15⟩, 1 / 2, 1 / 2⟩).2.1 h1 h2 h3⟩

/-- Counterexample to C3 as stated: the code computes the sample count with
`int(...)` (truncation), not `round(...)`.  At `duration = 3/4` (exactly
representable as a float) the real product is `22050 * 3/4 = 16537.5`: the
code produces 16537 samples while `round` would give 16538. -/
theorem spec_c3_counterexample :
    (generate_tone 440 (3 / 4) (3 / 10)).length = 16537 ∧
      round ((SAMPLE_RATE : ℝ) * (3 / 4)) = 16538 := by
  constructor
  · unfold generate_tone
    rw [List.length_map, List.length_range]
    have h1 : ((SAMPLE_RATE : ℝ) * (3 / 4)) = 33075 / 2 := by
      norm_num [SAMPLE_RATE]
    rw [h1, truncR_of_nonneg (by norm_num)]
    have h2 : ⌊(33075 / 2 : ℝ)⌋ = 16537 := by
      rw [Int.floor_eq_iff]
      constructor <;> norm_num
    rw [h2]
    rfl
  · rw [round_eq]
    have h1 : ((SAMPLE_RATE : ℝ) * (3 / 4) + 1 / 2) = ((16538 : ℤ) : ℝ) := by
      norm_num [SAMPLE_RATE]
    rw [h1]
    exact Int.floor_intCast _

/-- Claim C3 as amended: `generate` produces `int(sample_rate * duration)`
samples (truncated toward zero, not rounded), sample `i` being
`int(volume * 32767 * sin(2 pi f i / sample_rate))`; in particular
`generate(440, 0.1, 0.2)` yields exactly 2205 samples, each within
`[-0.2 * 32767, 0.2 * 32767]`. -/
theorem spec_c3_tone :
    (∀ f d v : ℝ, (generate_tone f d v).length =
        (truncR ((SAMPLE_RATE : ℝ) * d)).toNat) ∧
      (generate_tone 440 (1 / 10) (1 / 5)).length = 2205 ∧
      (∀ i : ℕ,
        |(((generate_tone 440 (1 / 10) (1 / 5)).getD i 0 : ℤ) : ℝ)| ≤ 32767 / 5) := by
  have hlen : ∀ f d v : ℝ, (generate_tone f d v).length =
      (truncR ((SAMPLE_RATE : ℝ) * d)).toNat := by
    intro f d v
    unfold generate_tone
    rw [List.length_map, List.length_range]
  refine ⟨hlen, ?_, ?_⟩
  · rw [hlen]
    have h1 : ((SAMPLE_RATE : ℝ) * (1 / 10)) = ((2205 : ℤ) : ℝ) := by
      norm_num [SAMPLE_RATE]
    rw [h1, truncR_of_nonneg (by norm_num), Int.floor_intCast]
    rfl
  · intro i
    have key : ∀ x : ℝ,
        |((truncR (1 / 5 * 32767 * Real.sin x) : ℤ) : ℝ)| ≤ 32767 / 5 := by
      intro x
      refine le_trans (truncR_abs_le _) ?_
      rw [abs_mul]
      have h2 : |(1 / 5 * 32767 : ℝ)| = 32767 / 5 := by
        rw [abs_of_nonneg (by norm_num)]
        norm_num
      rw [h2]
      have h1 : |Real.sin x| ≤ 1 :=
        abs_le.mpr ⟨Real.neg_one_le_sin x, Real.sin_le_one x⟩
      nlinarith [abs_nonneg (Real.sin x)]
    by_cases hi : i < (generate_tone 440 (1 / 10) (1 / 5)).length
    · rw [List.getD_eq_getElem _ _ hi]
      unfold generate_tone at hi ⊢
      simp only [List.getElem_map]
      exact key _
    · push_neg at hi
      rw [List.getD_eq_default _ _ hi]
      norm_num

end Pong4k
